import Mathlib

/-!
Shallow embedding of the paylike Go API client (`paylike.go`) and proofs
about its request/response marshalling layer.

Modelling conventions:
* `http.Request` is a record of method, URL, optional body, headers and the
  Basic-Auth credential (`SetBasicAuth` stores the user/password pair).
* The network (`http.Client.Do` plus reading the response body with
  `ioutil.ReadAll`) is an oracle `HttpRequest → DoResult` held in the
  client's `client` field, mirroring the `*http.Client` field of the Go
  struct.  `DoResult.fail` is a non-nil error from `Do`; `DoResult.resp`
  carries the outcome of reading the response body.
* `http.NewRequest` is a standard-library function that can fail on bad
  input; endpoint methods receive it as an explicit `NewReqFn` argument,
  with `stdNewRequest` as its ordinary (successful) behaviour.
* `encoding/json.Unmarshal` is modelled by an executable JSON parser
  (`jsonParse`) plus shape adapters for the destination types used by the
  source (`map[string]*T`, `[]*T`, a struct, and the `nil` interface).
  The reflection-based decoding of the individual resource structs
  (Merchant, App, ...) belongs to the Go standard library, so resource
  payloads are kept as parsed `JSON` values; the envelope and array logic
  that the repository itself owns is modelled exactly.
* Stateful behaviour (which requests are handed to `Do`, whether the body
  was read) is returned explicitly in `ExecOutcome`.
* Several endpoints return the decoded destination in the same `return`
  statement as the executor call, e.g.
  `return marshalled["card"], c.executeRequestAndMarshal(req, &marshalled)`.
  Go evaluates the function call ahead of the other return operands (the
  call is hoisted by the compiler), so the map index / slice read sees the
  filled destination; the repository's own tests (`TestFetchMerchants`,
  `TestListTransactions`, `TestCreateTransaction`, ...) assert non-empty
  results from exactly these endpoints.  The model therefore reads the
  destination after the executor call.
-/

namespace Paylike

/-- Errors surfaced by the Go client. `transport` models a non-nil error from
`http.Client.Do`, `readBody` one from `ioutil.ReadAll`, `jsonErr` one from
`encoding/json.Unmarshal`, and `newRequestErr` one from `http.NewRequest`.
`decodeError` is modelled from the spec: the spec describes a `DecodeError`
wrapping the parse failure and the raw response bytes, but the Go source
defines no such type; the constructor exists only so theorems can compare
the code's behaviour against the spec's description. -/
inductive GoError where
  | transport (msg : String)
  | readBody (msg : String)
  | jsonErr (msg : String)
  | newRequestErr (msg : String)
  | decodeError (cause : String) (raw : String)
deriving DecidableEq, Repr

/-- Whether an error is the spec's `DecodeError` kind (wrapping a cause and
the raw bytes).  Modelled from the spec; the Go code never produces one. -/
def GoError.isDecodeErrorKind : GoError → Bool
  | GoError.decodeError _ _ => true
  | _ => false

/-- An outbound HTTP request as built by `http.NewRequest` and mutated by
`SetBasicAuth` / `Header.Set` in `executeRequestAndMarshal`. -/
structure HttpRequest where
  method : String
  url : String
  body : Option String
  headers : List (String × String)
  basicAuth : Option (String × String)
deriving DecidableEq, Repr

/-- Outcome of `http.Client.Do` followed by `ioutil.ReadAll` on the
response body: either `Do` itself fails, or it yields a response whose
body read gives an error or the raw bytes. -/
inductive DoResult where
  | fail (e : GoError)
  | resp (read : Except GoError String)

/-- The Go `Client` struct (`paylike.go` lines 13-17): API key, the
`*http.Client` used to execute requests (modelled as the network oracle),
and the base API host. -/
structure Client where
  Key : String
  client : HttpRequest → DoResult
  baseAPI : String

/-- Models `NewClient` (line 254-256).  Go allocates a fresh
`&http.Client{}`; since the network stack is outside the program, the
transport that client will exhibit is taken as a parameter. -/
def NewClient (key : String) (httpClient : HttpRequest → DoResult) : Client :=
  { Key := key, client := httpClient, baseAPI := "https://api.paylike.io" }

/-- Models `SetKey` (lines 260-263): assigns the key field in place and
returns the same client; in the state-passing embedding the updated record
is both the new state of the handle and the returned value. -/
def Client.SetKey (c : Client) (key : String) : Client :=
  { c with Key := key }

/-- Models `getURL` (lines 428-430): `fmt.Sprintf("%s%s", c.baseAPI, url)`. -/
def Client.getURL (c : Client) (url : String) : String :=
  c.baseAPI ++ url

/-- Models `http.Header.Set`: replaces any existing values for the key. -/
def headerSet (hs : List (String × String)) (k v : String) : List (String × String) :=
  (k, v) :: hs.filter (fun p => p.1 != k)

/-- Looks up a header value (first entry wins, as `Header.Get` does). -/
def headerGet (hs : List (String × String)) (k : String) : Option String :=
  (hs.find? (fun p => p.1 == k)).map (fun p => p.2)

/-- The request mutations performed at the top of
`executeRequestAndMarshal` (lines 688-689): `req.SetBasicAuth("", c.Key)`
and `req.Header.Set("Content-Type", "application/json")`. -/
def withCredentials (c : Client) (req : HttpRequest) : HttpRequest :=
  { req with
      basicAuth := some ("", c.Key),
      headers := headerSet req.headers "Content-Type" "application/json" }

/-- Observable outcome of one `executeRequestAndMarshal` run: the final
contents of the destination value, the returned error, the requests handed
to `http.Client.Do` (in order), and whether the response body was read. -/
structure ExecOutcome (σ : Type) where
  value : σ
  error : Option GoError
  calls : List HttpRequest
  bodyRead : Bool

/-- Models `executeRequestAndMarshal` (lines 687-703).  `unmarshal` is the
behaviour of `json.Unmarshal(b, &value)` for the dynamic type of the
destination `value`; `dest` is the destination's contents before the call
(its Go zero value at every call site).  The Go code checks `len(b) == 0`,
modelled as `b = ""`. -/
def executeRequestAndMarshal {σ : Type} (c : Client) (req : HttpRequest)
    (unmarshal : String → Except GoError σ) (dest : σ) : ExecOutcome σ :=
  match c.client (withCredentials c req) with
  | DoResult.fail e => ⟨dest, some e, [withCredentials c req], false⟩
  | DoResult.resp (Except.error e) => ⟨dest, some e, [withCredentials c req], true⟩
  | DoResult.resp (Except.ok b) =>
    if b = "" then ⟨dest, none, [withCredentials c req], true⟩
    else
      match unmarshal b with
      | Except.ok v => ⟨v, none, [withCredentials c req], true⟩
      | Except.error e => ⟨dest, some e, [withCredentials c req], true⟩

/-- A parsed JSON value.  Numeric literals are kept as their source text;
nothing in the repository inspects numeric payload values, so no floating
point model is needed. -/
inductive JSON where
  | null
  | bool (b : Bool)
  | num (lit : String)
  | str (s : String)
  | arr (elems : List JSON)
  | obj (fields : List (String × JSON))
deriving Repr, Inhabited

/-- Whitespace skipping as in RFC 8259 (space, tab, newline, return). -/
def skipWs : List Char → List Char
  | c :: cs =>
    if c = ' ' ∨ c = '\t' ∨ c = '\n' ∨ c = '\r' then skipWs cs else c :: cs
  | [] => []

/-- Hexadecimal digit test for `\uXXXX` escapes. -/
def isHexDigit (c : Char) : Bool :=
  c.isDigit || ('a' ≤ c && c ≤ 'f') || ('A' ≤ c && c ≤ 'F')

/-- Value of a hexadecimal digit. -/
def hexVal (c : Char) : Nat :=
  if c.isDigit then c.toNat - 48
  else if 'a' ≤ c then c.toNat - 87
  else c.toNat - 55

/-- The character denoted by a `\uXXXX` escape. -/
def hexChar (h1 h2 h3 h4 : Char) : Char :=
  Char.ofNat (((hexVal h1 * 16 + hexVal h2) * 16 + hexVal h3) * 16 + hexVal h4)

/-- Single-character JSON escapes (`\"`, `\\`, `\/`, `\b`, `\f`, `\n`,
`\r`, `\t`). -/
def escChar (c : Char) : Option Char :=
  if c = '"' then some '"'
  else if c = '\\' then some '\\'
  else if c = '/' then some '/'
  else if c = 'b' then some (Char.ofNat 8)
  else if c = 'f' then some (Char.ofNat 12)
  else if c = 'n' then some '\n'
  else if c = 'r' then some (Char.ofNat 13)
  else if c = 't' then some (Char.ofNat 9)
  else none

/-- Decodes the content of a JSON string literal, starting right after the
opening quote.  Returns the decoded characters and the input remaining
after the closing quote.  Escape sequences and the RFC 8259 ban on raw
control characters are handled as `encoding/json` does. -/
def decodeStrContent : List Char → Option (List Char × List Char)
  | [] => none
  | c :: rest =>
    if c = '"' then some ([], rest)
    else if c = '\\' then
      match rest with
      | [] => none
      | e :: rest1 =>
        if e = 'u' then
          match rest1 with
          | h1 :: h2 :: h3 :: h4 :: rest2 =>
            if isHexDigit h1 && isHexDigit h2 && isHexDigit h3 && isHexDigit h4 then
              match decodeStrContent rest2 with
              | some (t, r) => some (hexChar h1 h2 h3 h4 :: t, r)
              | none => none
            else none
          | _ => none
        else
          match escChar e with
          | some c2 =>
            match decodeStrContent rest1 with
            | some (t, r) => some (c2 :: t, r)
            | none => none
          | none => none
    else if c.toNat < 32 then none
    else
      match decodeStrContent rest with
      | some (t, r) => some (c :: t, r)
      | none => none

/-- Longest digit run at the head of the input. -/
def spanDigits : List Char → List Char × List Char
  | [] => ([], [])
  | c :: cs =>
    if c.isDigit then
      let p := spanDigits cs
      (c :: p.1, p.2)
    else ([], c :: cs)

/-- Optional fraction part of a JSON number (`.` followed by one or more
digits), returning its characters and the rest of the input. -/
def parseFrac : List Char → Option (List Char × List Char)
  | '.' :: r =>
    match spanDigits r with
    | ([], _) => none
    | (ds, r2) => some ('.' :: ds, r2)
  | cs => some ([], cs)

/-- Optional exponent part of a JSON number. -/
def parseExp : List Char → Option (List Char × List Char)
  | c :: r =>
    if c = 'e' ∨ c = 'E' then
      let p : List Char × List Char :=
        match r with
        | '+' :: rr => (['+'], rr)
        | '-' :: rr => (['-'], rr)
        | _ => ([], r)
      match spanDigits p.2 with
      | ([], _) => none
      | (ds, r2) => some (c :: (p.1 ++ ds), r2)
    else some ([], c :: r)
  | [] => some ([], [])

/-- A JSON number literal per RFC 8259: optional minus, integer part with
no leading zeros, optional fraction and exponent.  Returns the literal's
characters and the remaining input. -/
def parseNumLit (cs : List Char) : Option (List Char × List Char) :=
  let p : List Char × List Char :=
    match cs with
    | '-' :: r => (['-'], r)
    | _ => ([], cs)
  match p.2 with
  | '0' :: r1 =>
    match parseFrac r1 with
    | none => none
    | some (f, r2) =>
      match parseExp r2 with
      | none => none
      | some (ex, r3) => some (p.1 ++ '0' :: (f ++ ex), r3)
  | c :: r1 =>
    if c.isDigit then
      let q := spanDigits r1
      match parseFrac q.2 with
      | none => none
      | some (f, r2) =>
        match parseExp r2 with
        | none => none
        | some (ex, r3) => some (p.1 ++ c :: (q.1 ++ (f ++ ex)), r3)
    else none
  | [] => none

/-- Strips an expected character sequence from the head of the input. -/
def stripChars : List Char → List Char → Option (List Char)
  | [], cs => some cs
  | _ :: _, [] => none
  | p :: ps, c :: cs => if c = p then stripChars ps cs else none

/-- Parser mode: a full value, the items of an array after `[`, or the
members of an object after the opening brace (both in the non-empty
case). -/
inductive PTag where
  | pv
  | parr
  | pobj

/-- Fuel-driven recursive-descent JSON parser.  In mode `pv` it parses one
JSON value; in mode `parr` the remaining comma-separated items of a
non-empty array including the closing bracket; in mode `pobj` the
remaining members of a non-empty object including the closing brace.
`none` means a syntax error (or fuel exhaustion, which `jsonParse` rules
out by supplying more fuel than any input can consume). -/
def parseCore : Nat → PTag → List Char → Option (JSON × List Char)
  | 0, _, _ => none
  | Nat.succ fuel, PTag.pv, cs =>
    match skipWs cs with
    | [] => none
    | c :: rest =>
      if c = '\x7b' then
        match skipWs rest with
        | '\x7d' :: r3 => some (JSON.obj [], r3)
        | r2 => parseCore fuel PTag.pobj r2
      else if c = '[' then
        match skipWs rest with
        | ']' :: r3 => some (JSON.arr [], r3)
        | r2 => parseCore fuel PTag.parr r2
      else if c = '"' then
        match decodeStrContent rest with
        | some (t, r) => some (JSON.str (String.mk t), r)
        | none => none
      else if c = 't' then
        match stripChars ['r', 'u', 'e'] rest with
        | some r => some (JSON.bool true, r)
        | none => none
      else if c = 'f' then
        match stripChars ['a', 'l', 's', 'e'] rest with
        | some r => some (JSON.bool false, r)
        | none => none
      else if c = 'n' then
        match stripChars ['u', 'l', 'l'] rest with
        | some r => some (JSON.null, r)
        | none => none
      else if c = '-' ∨ c.isDigit then
        match parseNumLit (c :: rest) with
        | some (lit, r) => some (JSON.num (String.mk lit), r)
        | none => none
      else none
  | Nat.succ fuel, PTag.parr, cs =>
    match parseCore fuel PTag.pv cs with
    | none => none
    | some (v, rest) =>
      match skipWs rest with
      | ',' :: r2 =>
        match parseCore fuel PTag.parr r2 with
        | some (JSON.arr xs, r3) => some (JSON.arr (v :: xs), r3)
        | _ => none
      | ']' :: r2 => some (JSON.arr [v], r2)
      | _ => none
  | Nat.succ fuel, PTag.pobj, cs =>
    match skipWs cs with
    | '"' :: r1 =>
      match decodeStrContent r1 with
      | some (k, r2) =>
        match skipWs r2 with
        | ':' :: r3 =>
          match parseCore fuel PTag.pv r3 with
          | none => none
          | some (v, r4) =>
            match skipWs r4 with
            | ',' :: r5 =>
              match parseCore fuel PTag.pobj r5 with
              | some (JSON.obj fs, r6) => some (JSON.obj ((String.mk k, v) :: fs), r6)
              | _ => none
            | '\x7d' :: r5 => some (JSON.obj [(String.mk k, v)], r5)
            | _ => none
        | _ => none
      | none => none
    | _ => none

/-- Models `encoding/json` syntax checking: parses exactly one JSON value
with surrounding whitespace.  The error message is a fixed stand-in for
the library's detailed messages; the repository never inspects message
text. -/
def jsonParse (s : String) : Except String JSON :=
  match parseCore (2 * s.length + 2) PTag.pv s.data with
  | some (v, rest) =>
    if skipWs rest = [] then Except.ok v else Except.error "invalid JSON syntax"
  | none => Except.error "invalid JSON syntax"

/-- Models `json.Unmarshal(b, &value)` when `value` is a nil `interface{}`
(the destination the executor receives from commands such as
`updateMerchant`): any well-formed JSON document decodes into a generic
value; malformed input is an error. -/
def unmarshalInterface (b : String) : Except GoError JSON :=
  match jsonParse b with
  | Except.ok v => Except.ok v
  | Except.error e => Except.error (GoError.jsonErr e)

/-- Models `json.Unmarshal(b, &m)` for `m : map[string]*T`: the document
must be an object (a `null` leaves the map nil, here the empty list).  The
per-value decoding of the resource struct `T` is standard-library
reflection, so values are kept as parsed `JSON`. -/
def unmarshalMapJSON (b : String) : Except GoError (List (String × JSON)) :=
  match jsonParse b with
  | Except.error e => Except.error (GoError.jsonErr e)
  | Except.ok (JSON.obj fields) => Except.ok fields
  | Except.ok JSON.null => Except.ok []
  | Except.ok _ => Except.error (GoError.jsonErr "cannot unmarshal JSON value into Go map")

/-- Models `json.Unmarshal(b, &s)` for `s : []*T`: the document must be an
array (`null` leaves the slice nil, here the empty list); elements stay as
parsed `JSON`. -/
def unmarshalArrJSON (b : String) : Except GoError (List JSON) :=
  match jsonParse b with
  | Except.error e => Except.error (GoError.jsonErr e)
  | Except.ok (JSON.arr elems) => Except.ok elems
  | Except.ok JSON.null => Except.ok []
  | Except.ok _ => Except.error (GoError.jsonErr "cannot unmarshal JSON value into Go slice")

/-- Go map indexing `m[k]` on the decoded envelope: the last JSON member
for the key wins (as repeated keys overwrite during `Unmarshal`), a
missing key yields the zero value of `*T`, i.e. nil. -/
def mapIndex (fields : List (String × JSON)) (k : String) : Option JSON :=
  (fields.reverse.find? (fun p => p.1 == k)).map (fun p => p.2)

/-- The `InviteUserToMerchantResponse` struct (lines 56-58). -/
structure InviteUserToMerchantResponse where
  IsMember : Bool
deriving DecidableEq, Repr

/-- Models `json.Unmarshal(b, &r)` for `r : InviteUserToMerchantResponse`:
an object whose `IsMember` member (matched case-insensitively, as the
field has no tag) must be a boolean; missing member leaves the zero value. -/
def unmarshalInvite (b : String) : Except GoError InviteUserToMerchantResponse :=
  match jsonParse b with
  | Except.error e => Except.error (GoError.jsonErr e)
  | Except.ok JSON.null => Except.ok ⟨false⟩
  | Except.ok (JSON.obj fs) =>
    match (fs.reverse.find? (fun p => p.1.toLower == "ismember")).map (fun p => p.2) with
    | some (JSON.bool v) => Except.ok ⟨v⟩
    | some _ => Except.error (GoError.jsonErr "cannot unmarshal JSON value into Go bool")
    | none => Except.ok ⟨false⟩
  | Except.ok _ => Except.error (GoError.jsonErr "cannot unmarshal JSON value into Go struct")

/-- The behaviour of `http.NewRequest(method, url, body)`; it can fail on
bad inputs, and that failure condition lives in the Go standard library,
so endpoint methods receive the function as an oracle. -/
def NewReqFn : Type :=
  String → String → Option String → Except GoError HttpRequest

/-- Ordinary, successful behaviour of `http.NewRequest`: a request with
the given method, URL and body, empty headers and no credential. -/
def stdNewRequest : NewReqFn :=
  fun m u b => Except.ok { method := m, url := u, body := b, headers := [], basicAuth := none }

/-- The body `CreateAppWithName` builds (line 275):
`fmt.Sprintf("urlbrace name:%s urlbrace", name)` — plain string
interpolation of the caller's name into a JSON-looking template, with no
escaping. -/
def createAppWithNameBody (name : String) : String :=
  "\x7b\"name\":\"" ++ name ++ "\"\x7d"

/-- The body `inviteUserToMerchant` builds (line 508): plain interpolation
of the email into the template, with no escaping. -/
def inviteUserBody (email : String) : String :=
  "\x7b\"email\":\"" ++ email ++ "\"\x7d"

/-- The body `addAppToMerchant` builds (line 545). -/
def addAppBody (appID : String) : String :=
  "\x7b\"appId\":\"" ++ appID ++ "\"\x7d"

/-- Models `createApp` (lines 434-442): POST `/apps`, decode the envelope
as `map[string]*App`, return the value under `"app"`. -/
def Client.createApp (c : Client) (newReq : NewReqFn) (body : Option String) :
    Option JSON × Option GoError :=
  match newReq "POST" (c.getURL "/apps") body with
  | Except.error e => (none, some e)
  | Except.ok req =>
    let out := executeRequestAndMarshal c req unmarshalMapJSON []
    (mapIndex out.value "app", out.error)

/-- Models `CreateAppWithName` (lines 273-277). -/
def Client.CreateAppWithName (c : Client) (newReq : NewReqFn) (name : String) :
    Option JSON × Option GoError :=
  c.createApp newReq (some (createAppWithNameBody name))

/-- Models `fetchApp` (lines 446-454): GET `/me`, envelope key
`"identity"`. -/
def Client.fetchApp (c : Client) (newReq : NewReqFn) :
    Option JSON × Option GoError :=
  match newReq "GET" (c.getURL "/me") none with
  | Except.error e => (none, some e)
  | Except.ok req =>
    let out := executeRequestAndMarshal c req unmarshalMapJSON []
    (mapIndex out.value "identity", out.error)

/-- Models `createMerchant` (lines 458-466): POST `/merchants`, envelope
key `"merchant"`. -/
def Client.createMerchant (c : Client) (newReq : NewReqFn) (body : Option String) :
    Option JSON × Option GoError :=
  match newReq "POST" (c.getURL "/merchants") body with
  | Except.error e => (none, some e)
  | Except.ok req =>
    let out := executeRequestAndMarshal c req unmarshalMapJSON []
    (mapIndex out.value "merchant", out.error)

/-- Models `fetchMerchants` (lines 470-478): GET with a limit query,
decoded as a bare array `[]*Merchant`. -/
def Client.fetchMerchants (c : Client) (newReq : NewReqFn) (appID : String) (limit : Int) :
    List JSON × Option GoError :=
  match newReq "GET" (c.getURL ("/identities/" ++ appID ++ "/merchants?limit=" ++ toString limit)) none with
  | Except.error e => ([], some e)
  | Except.ok req =>
    let out := executeRequestAndMarshal c req unmarshalArrJSON []
    (out.value, out.error)

/-- Models `getMerchant` (lines 482-491): GET `/merchants/:id`, envelope
key `"merchant"`. -/
def Client.getMerchant (c : Client) (newReq : NewReqFn) (id : String) :
    Option JSON × Option GoError :=
  match newReq "GET" (c.getURL ("/merchants/" ++ id)) none with
  | Except.error e => (none, some e)
  | Except.ok req =>
    let out := executeRequestAndMarshal c req unmarshalMapJSON []
    (mapIndex out.value "merchant", out.error)

/-- Models `updateMerchant` (lines 495-502): PUT `/merchants/:id` with a
nil destination.  Note the error branch of `http.NewRequest` returns
`nil`, dropping the error (line 499). -/
def Client.updateMerchant (c : Client) (newReq : NewReqFn) (id : String) (body : Option String) :
    Option GoError :=
  match newReq "PUT" (c.getURL ("/merchants/" ++ id)) body with
  | Except.error _ => none
  | Except.ok req => (executeRequestAndMarshal c req unmarshalInterface JSON.null).error

/-- Models `inviteUserToMerchant` (lines 507-517): POST the interpolated
email body; the error branch of `http.NewRequest` returns `nil, nil`
(line 512). -/
def Client.inviteUserToMerchant (c : Client) (newReq : NewReqFn) (id email : String) :
    Option InviteUserToMerchantResponse × Option GoError :=
  match newReq "POST" (c.getURL ("/merchants/" ++ id ++ "/users")) (some (inviteUserBody email)) with
  | Except.error _ => (none, none)
  | Except.ok req =>
    let out := executeRequestAndMarshal c req unmarshalInvite ⟨false⟩
    (some out.value, out.error)

/-- Models `fetchUsersToMerchant` (lines 521-529): bare array `[]*User`;
its `http.NewRequest` error branch also returns `nil, nil` (line 525). -/
def Client.fetchUsersToMerchant (c : Client) (newReq : NewReqFn) (id : String) (limit : Int) :
    List JSON × Option GoError :=
  match newReq "GET" (c.getURL ("/merchants/" ++ id ++ "/users?limit=" ++ toString limit)) none with
  | Except.error _ => ([], none)
  | Except.ok req =>
    let out := executeRequestAndMarshal c req unmarshalArrJSON []
    (out.value, out.error)

/-- Models `revokeUserFromMerchant` (lines 533-540): DELETE with a nil
destination. -/
def Client.revokeUserFromMerchant (c : Client) (newReq : NewReqFn) (merchantID userID : String) :
    Option GoError :=
  match newReq "DELETE" (c.getURL ("/merchants/" ++ merchantID ++ "/users/" ++ userID)) none with
  | Except.error e => some e
  | Except.ok req => (executeRequestAndMarshal c req unmarshalInterface JSON.null).error

/-- Models `addAppToMerchant` (lines 544-552): POST the interpolated appId
body with a nil destination. -/
def Client.addAppToMerchant (c : Client) (newReq : NewReqFn) (merchantID appID : String) :
    Option GoError :=
  match newReq "POST" (c.getURL ("/merchants/" ++ merchantID ++ "/apps")) (some (addAppBody appID)) with
  | Except.error e => some e
  | Except.ok req => (executeRequestAndMarshal c req unmarshalInterface JSON.null).error

/-- Models `fetchAppsToMerchant` (lines 556-564): bare array `[]*App`. -/
def Client.fetchAppsToMerchant (c : Client) (newReq : NewReqFn) (merchantID : String) (limit : Int) :
    List JSON × Option GoError :=
  match newReq "GET" (c.getURL ("/merchants/" ++ merchantID ++ "/apps?limit=" ++ toString limit)) none with
  | Except.error e => ([], some e)
  | Except.ok req =>
    let out := executeRequestAndMarshal c req unmarshalArrJSON []
    (out.value, out.error)

/-- Models `revokeAppFromMerchant` (lines 568-575): DELETE with a nil
destination. -/
def Client.revokeAppFromMerchant (c : Client) (newReq : NewReqFn) (merchantID appID : String) :
    Option GoError :=
  match newReq "DELETE" (c.getURL ("/merchants/" ++ merchantID ++ "/apps/" ++ appID)) none with
  | Except.error e => some e
  | Except.ok req => (executeRequestAndMarshal c req unmarshalInterface JSON.null).error

/-- Models `fetchLinesToMerchant` (lines 579-587): bare array `[]*Line`. -/
def Client.fetchLinesToMerchant (c : Client) (newReq : NewReqFn) (merchantID : String) (limit : Int) :
    List JSON × Option GoError :=
  match newReq "GET" (c.getURL ("/merchants/" ++ merchantID ++ "/lines?limit=" ++ toString limit)) none with
  | Except.error e => ([], some e)
  | Except.ok req =>
    let out := executeRequestAndMarshal c req unmarshalArrJSON []
    (out.value, out.error)

/-- Models `createTransaction` (lines 591-599): POST, envelope key
`"transaction"`. -/
def Client.createTransaction (c : Client) (newReq : NewReqFn) (merchantID : String) (body : Option String) :
    Option JSON × Option GoError :=
  match newReq "POST" (c.getURL ("/merchants/" ++ merchantID ++ "/transactions")) body with
  | Except.error e => (none, some e)
  | Except.ok req =>
    let out := executeRequestAndMarshal c req unmarshalMapJSON []
    (mapIndex out.value "transaction", out.error)

/-- Models `listTransactions` (lines 603-611): bare array
`[]*Transaction`. -/
def Client.listTransactions (c : Client) (newReq : NewReqFn) (merchantID : String) (limit : Int) :
    List JSON × Option GoError :=
  match newReq "GET" (c.getURL ("/merchants/" ++ merchantID ++ "/transactions?limit=" ++ toString limit)) none with
  | Except.error e => ([], some e)
  | Except.ok req =>
    let out := executeRequestAndMarshal c req unmarshalArrJSON []
    (out.value, out.error)

/-- Models `captureTransaction` (lines 615-623): POST, envelope key
`"transaction"`. -/
def Client.captureTransaction (c : Client) (newReq : NewReqFn) (transactionID : String) (body : Option String) :
    Option JSON × Option GoError :=
  match newReq "POST" (c.getURL ("/transactions/" ++ transactionID ++ "/captures")) body with
  | Except.error e => (none, some e)
  | Except.ok req =>
    let out := executeRequestAndMarshal c req unmarshalMapJSON []
    (mapIndex out.value "transaction", out.error)

/-- Models `refundTransaction` (lines 627-635). -/
def Client.refundTransaction (c : Client) (newReq : NewReqFn) (transactionID : String) (body : Option String) :
    Option JSON × Option GoError :=
  match newReq "POST" (c.getURL ("/transactions/" ++ transactionID ++ "/refunds")) body with
  | Except.error e => (none, some e)
  | Except.ok req =>
    let out := executeRequestAndMarshal c req unmarshalMapJSON []
    (mapIndex out.value "transaction", out.error)

/-- Models `voidTransaction` (lines 639-647). -/
def Client.voidTransaction (c : Client) (newReq : NewReqFn) (transactionID : String) (body : Option String) :
    Option JSON × Option GoError :=
  match newReq "POST" (c.getURL ("/transactions/" ++ transactionID ++ "/voids")) body with
  | Except.error e => (none, some e)
  | Except.ok req =>
    let out := executeRequestAndMarshal c req unmarshalMapJSON []
    (mapIndex out.value "transaction", out.error)

/-- Models `findTransaction` (lines 651-659): GET, envelope key
`"transaction"`. -/
def Client.findTransaction (c : Client) (newReq : NewReqFn) (transactionID : String) :
    Option JSON × Option GoError :=
  match newReq "GET" (c.getURL ("/transactions/" ++ transactionID)) none with
  | Except.error e => (none, some e)
  | Except.ok req =>
    let out := executeRequestAndMarshal c req unmarshalMapJSON []
    (mapIndex out.value "transaction", out.error)

/-- Models `fetchCard` (lines 663-671): GET `/cards/:id`, envelope key
`"card"`. -/
def Client.fetchCard (c : Client) (newReq : NewReqFn) (cardID : String) :
    Option JSON × Option GoError :=
  match newReq "GET" (c.getURL ("/cards/" ++ cardID)) none with
  | Except.error e => (none, some e)
  | Except.ok req =>
    let out := executeRequestAndMarshal c req unmarshalMapJSON []
    (mapIndex out.value "card", out.error)

/-- Models `createCard` (lines 675-683): POST, envelope key `"card"`. -/
def Client.createCard (c : Client) (newReq : NewReqFn) (merchantID : String) (body : Option String) :
    Option JSON × Option GoError :=
  match newReq "POST" (c.getURL ("/merchants/" ++ merchantID ++ "/cards")) body with
  | Except.error e => (none, some e)
  | Except.ok req =>
    let out := executeRequestAndMarshal c req unmarshalMapJSON []
    (mapIndex out.value "card", out.error)

/-- The `MerchantUpdateDTO` struct (lines 48-52); all three fields carry
the `omitempty` JSON option. -/
structure MerchantUpdateDTO where
  Name : String
  Email : String
  Descriptor : String
deriving DecidableEq, Repr

/-- The `TransactionTrailDTO` struct (lines 166-170); `amount` is always
emitted, `currency` and `descriptor` carry `omitempty`. -/
structure TransactionTrailDTO where
  Amount : Int
  Currency : String
  Descriptor : String
deriving DecidableEq, Repr

/-- How `encoding/json.Marshal` encodes one character of a Go string:
quote, backslash and control characters are escaped, and `<`, `>`, `&`
are HTML-escaped by default. -/
def goQuoteChar (c : Char) : List Char :=
  if c = '"' then ['\\', '"']
  else if c = '\\' then ['\\', '\\']
  else if c = '\n' then ['\\', 'n']
  else if c = Char.ofNat 13 then ['\\', 'r']
  else if c = Char.ofNat 9 then ['\\', 't']
  else if c.toNat < 32 then
    ['\\', 'u', '0', '0',
      (Nat.digitChar (c.toNat / 16)), (Nat.digitChar (c.toNat % 16))]
  else if c = '<' then ['\\', 'u', '0', '0', '3', 'c']
  else if c = '>' then ['\\', 'u', '0', '0', '3', 'e']
  else if c = '&' then ['\\', 'u', '0', '0', '2', '6']
  else [c]

/-- A Go string rendered as a JSON string literal by `json.Marshal`. -/
def goQuote (s : String) : String :=
  "\"" ++ String.mk (s.data.map goQuoteChar).flatten ++ "\""

/-- Joins already-rendered object members with commas. -/
def joinComma : List String → String
  | [] => ""
  | [x] => x
  | x :: xs => x ++ "," ++ joinComma xs

/-- Renders an object from members whose values are already serialized. -/
def marshalMembers (ms : List (String × String)) : String :=
  "\x7b" ++ joinComma (ms.map (fun kv => goQuote kv.1 ++ ":" ++ kv.2)) ++ "\x7d"

/-- The members `json.Marshal` emits for a `MerchantUpdateDTO`: each field
is tagged `omitempty`, so a field at its zero value (the empty string)
contributes no member at all. -/
def MerchantUpdateDTO.members (d : MerchantUpdateDTO) : List (String × String) :=
  (if d.Name = "" then [] else [("name", goQuote d.Name)]) ++
  (if d.Email = "" then [] else [("email", goQuote d.Email)]) ++
  (if d.Descriptor = "" then [] else [("descriptor", goQuote d.Descriptor)])

/-- Models `json.Marshal` on `MerchantUpdateDTO` (as used by
`UpdateMerchant`, lines 309-315). -/
def MerchantUpdateDTO.marshal (d : MerchantUpdateDTO) : String :=
  marshalMembers (MerchantUpdateDTO.members d)

/-- The members `json.Marshal` emits for a `TransactionTrailDTO`:
`amount` has no `omitempty` and is always present; `currency` and
`descriptor` are omitted at their zero value. -/
def TransactionTrailDTO.members (t : TransactionTrailDTO) : List (String × String) :=
  [("amount", toString t.Amount)] ++
  (if t.Currency = "" then [] else [("currency", goQuote t.Currency)]) ++
  (if t.Descriptor = "" then [] else [("descriptor", goQuote t.Descriptor)])

/-- Models `json.Marshal` on `TransactionTrailDTO` (as used by
`CaptureTransaction` / `RefundTransaction` / `VoidTransaction`). -/
def TransactionTrailDTO.marshal (t : TransactionTrailDTO) : String :=
  marshalMembers (TransactionTrailDTO.members t)

/-- Models `UpdateMerchant` (lines 309-315): marshal the DTO, then call
`updateMerchant` with the bytes (marshalling a struct of plain strings
cannot fail in Go). -/
def Client.UpdateMerchant (c : Client) (newReq : NewReqFn) (id : String) (dto : MerchantUpdateDTO) :
    Option GoError :=
  c.updateMerchant newReq id (some (MerchantUpdateDTO.marshal dto))

/-- The fixed prefix of the rigid envelope the interpolated bodies take:
an opening brace, the quoted key, a colon and the value's opening quote. -/
def keyEnvPref (key : String) : List Char :=
  '\x7b' :: '"' :: (key.data ++ ['"', ':', '"'])

/-- Decides whether `body` is a well-formed JSON document of the exact
shape the interpolated bodies take — an object with the single given key
and a string value, no surrounding whitespace — and returns the string
the value encodes.  Any body `createAppWithNameBody` or `inviteUserBody`
produces starts with this prefix and ends with a quote and brace, and for
such inputs a full RFC 8259 parser accepts exactly when this one does (a
premature close of the value string always leaves a stray quote before
the closing brace). -/
def parseKeyedBody (key body : String) : Option String :=
  match stripChars (keyEnvPref key) body.data with
  | none => none
  | some cs =>
    match decodeStrContent cs with
    | some (t, r) => if r = ['\x7d'] then some (String.mk t) else none
    | none => none

/-! Helper lemmas about the executor. -/

/-- The executor hands exactly one request to `http.Client.Do`: the input
request with credentials and content type attached. -/
theorem exec_calls {σ : Type} (c : Client) (req : HttpRequest)
    (unmarshal : String → Except GoError σ) (dest : σ) :
    (executeRequestAndMarshal c req unmarshal dest).calls = [withCredentials c req] := by
  unfold executeRequestAndMarshal
  cases c.client (withCredentials c req) with
  | fail e => rfl
  | resp rd =>
    cases rd with
    | error e => rfl
    | ok b =>
      by_cases hb : b = ""
      · simp [hb]
      · cases hu : unmarshal b <;> simp [hb, hu]

/-- When the transport succeeds and the body read yields `b`, a non-empty
`b` that the destination's unmarshaller accepts becomes the new
destination value with no error. -/
theorem exec_ok {σ : Type} (c : Client) (req : HttpRequest)
    (unmarshal : String → Except GoError σ) (dest : σ) (b : String) (v : σ)
    (htr : c.client (withCredentials c req) = DoResult.resp (Except.ok b))
    (hb : b ≠ "") (hu : unmarshal b = Except.ok v) :
    executeRequestAndMarshal c req unmarshal dest =
      ⟨v, none, [withCredentials c req], true⟩ := by
  unfold executeRequestAndMarshal
  rw [htr]
  simp [hb, hu]

/-- C1: every request issued through `executeRequestAndMarshal` — hence by
every endpoint method, all of which delegate to it — carries HTTP Basic
Auth credentials with an empty username and the client's configured API
key as the password (line 688). -/
theorem executor_sets_basic_auth {σ : Type} (c : Client) (req : HttpRequest)
    (unmarshal : String → Except GoError σ) (dest : σ) :
    ∀ r ∈ (executeRequestAndMarshal c req unmarshal dest).calls,
      r.basicAuth = some ("", c.Key) := by
  intro r hr
  rw [exec_calls] at hr
  simp only [List.mem_singleton] at hr
  subst hr
  rfl

/-- Witness for C1 at a concrete client, transport and request. -/
theorem executor_sets_basic_auth_witness :
    ({ method := "GET", url := "https://api.paylike.io/me", body := none,
       headers := [("Content-Type", "application/json")],
       basicAuth := some ("", "key-one") } : HttpRequest).basicAuth = some ("", "key-one") :=
  executor_sets_basic_auth
    ⟨"key-one", fun _ => DoResult.resp (Except.ok ""), "https://api.paylike.io"⟩
    ⟨"GET", "https://api.paylike.io/me", none, [], none⟩
    unmarshalInterface JSON.null _ (by decide)

/-- C6 counterexample: a GET request with no body still gets the
`Content-Type: application/json` header — the executor sets it
unconditionally (line 689), so the claim's "requests without a body do
not carry a JSON content type" is false on this concrete run. -/
theorem content_type_counterexample :
    (executeRequestAndMarshal
        (⟨"key-six", fun _ => DoResult.resp (Except.ok ""), "https://api.paylike.io"⟩ : Client)
        ⟨"GET", "https://api.paylike.io/merchants/m1", none, [], none⟩
        unmarshalMapJSON []).calls =
      [⟨"GET", "https://api.paylike.io/merchants/m1", none,
        [("Content-Type", "application/json")], some ("", "key-six")⟩] ∧
    (none : Option String) = none ∧
    headerGet [("Content-Type", "application/json")] "Content-Type" =
      some "application/json" :=
  ⟨rfl, rfl, rfl⟩

/-- C6 (amended): the executor sets `Content-Type: application/json` on
every request it issues, whether or not a body is present. -/
theorem content_type_always_set {σ : Type} (c : Client) (req : HttpRequest)
    (unmarshal : String → Except GoError σ) (dest : σ) :
    ∀ r ∈ (executeRequestAndMarshal c req unmarshal dest).calls,
      headerGet r.headers "Content-Type" = some "application/json" := by
  intro r hr
  rw [exec_calls] at hr
  simp only [List.mem_singleton] at hr
  subst hr
  simp [withCredentials, headerGet, headerSet]

/-- Witness for the amended C6 on a body-less DELETE request. -/
theorem content_type_always_set_witness :
    headerGet ({ method := "DELETE", url := "https://api.paylike.io/merchants/m/apps/a",
                 body := none, headers := [("Content-Type", "application/json")],
                 basicAuth := some ("", "key-six-b") } : HttpRequest).headers "Content-Type" =
      some "application/json" :=
  content_type_always_set
    ⟨"key-six-b", fun _ => DoResult.resp (Except.ok ""), "https://api.paylike.io"⟩
    ⟨"DELETE", "https://api.paylike.io/merchants/m/apps/a", none, [], none⟩
    unmarshalInterface JSON.null _ (by decide)

/-- C7: when `http.Client.Do` fails, the executor returns that error to
the caller unchanged, issues exactly one request (no retry), and never
reads or decodes a response body (lines 690-693). -/
theorem transport_error_verbatim {σ : Type} (c : Client) (req : HttpRequest)
    (unmarshal : String → Except GoError σ) (dest : σ) (e : GoError)
    (htr : c.client (withCredentials c req) = DoResult.fail e) :
    executeRequestAndMarshal c req unmarshal dest =
      ⟨dest, some e, [withCredentials c req], false⟩ := by
  unfold executeRequestAndMarshal
  rw [htr]

/-- Witness for C7: a concrete connection failure propagates verbatim,
with one issued request and the body unread. -/
theorem transport_error_verbatim_witness :
    executeRequestAndMarshal
        (⟨"key-seven", fun _ => DoResult.fail (GoError.transport "connection refused"),
          "https://api.paylike.io"⟩ : Client)
        ⟨"GET", "https://api.paylike.io/me", none, [], none⟩
        unmarshalInterface JSON.null =
      ⟨JSON.null, some (GoError.transport "connection refused"),
       [⟨"GET", "https://api.paylike.io/me", none,
         [("Content-Type", "application/json")], some ("", "key-seven")⟩], false⟩ :=
  transport_error_verbatim _ _ _ _ _ rfl

/-- C8: `SetKey` changes only the `Key` field — the HTTP client and base
API host are untouched — returns the updated client as the new state of
the same handle, and every request issued through it afterwards
authenticates with the new key (lines 260-263). -/
theorem setKey_updates_only_key {σ : Type} (c : Client) (key : String)
    (req : HttpRequest) (unmarshal : String → Except GoError σ) (dest : σ) :
    (c.SetKey key).Key = key ∧
    (c.SetKey key).client = c.client ∧
    (c.SetKey key).baseAPI = c.baseAPI ∧
    ∀ r ∈ (executeRequestAndMarshal (c.SetKey key) req unmarshal dest).calls,
      r.basicAuth = some ("", key) := by
  refine ⟨rfl, rfl, rfl, ?_⟩
  intro r hr
  rw [exec_calls] at hr
  simp only [List.mem_singleton] at hr
  subst hr
  rfl

/-- Witness for C8: after swapping the key, the issued request carries the
new key. -/
theorem setKey_updates_only_key_witness :
    ({ method := "GET", url := "https://api.paylike.io/me", body := none,
       headers := [("Content-Type", "application/json")],
       basicAuth := some ("", "new-key") } : HttpRequest).basicAuth = some ("", "new-key") :=
  (setKey_updates_only_key
    ⟨"old-key", fun _ => DoResult.resp (Except.ok ""), "https://api.paylike.io"⟩
    "new-key" ⟨"GET", "https://api.paylike.io/me", none, [], none⟩
    unmarshalInterface JSON.null).2.2.2 _ (by decide)

/-- C2 counterexample: with a nil destination, a response body that is not
valid JSON makes `updateMerchant` return a decoding error — the executor
still unmarshals non-empty bodies even when the destination is absent
(line 702), so "whatever the body contains, no decoding error is
produced" is false on this concrete run. -/
theorem nil_destination_counterexample :
    Client.updateMerchant
        (⟨"key-two", fun _ => DoResult.resp (Except.ok "not json"), "https://api.paylike.io"⟩ : Client)
        stdNewRequest "m1" none =
      some (GoError.jsonErr "invalid JSON syntax") := by
  rfl

/-- C2 (amended): for nil-destination commands (`updateMerchant` and
`revokeUserFromMerchant` shown; `addAppToMerchant` and
`revokeAppFromMerchant` call the executor identically), an empty body
returns success, but a non-empty body is still decoded as a generic JSON
value: well-formed JSON succeeds and malformed JSON is an error. -/
theorem nil_destination_decode (c : Client) (b id uid : String)
    (htr : ∀ r, c.client r = DoResult.resp (Except.ok b)) :
    Client.updateMerchant c stdNewRequest id none =
      (if b = "" then none
       else match jsonParse b with
            | Except.ok _ => none
            | Except.error e => some (GoError.jsonErr e)) ∧
    Client.revokeUserFromMerchant c stdNewRequest id uid =
      (if b = "" then none
       else match jsonParse b with
            | Except.ok _ => none
            | Except.error e => some (GoError.jsonErr e)) := by
  constructor <;>
  · simp only [Client.updateMerchant, Client.revokeUserFromMerchant, stdNewRequest,
      executeRequestAndMarshal, htr]
    by_cases hb : b = ""
    · simp [hb]
    · cases hj : jsonParse b <;> simp [hb, hj, unmarshalInterface]

/-- Witness for the amended C2: a valid-JSON body on a nil-destination
command yields success. -/
theorem nil_destination_decode_witness :
    Client.updateMerchant
        (⟨"key-two-b", fun _ => DoResult.resp (Except.ok "[true]"), "https://api.paylike.io"⟩ : Client)
        stdNewRequest "m1" none = none := by
  rw [(nil_destination_decode
        (⟨"key-two-b", fun _ => DoResult.resp (Except.ok "[true]"), "https://api.paylike.io"⟩ : Client)
        "[true]" "m1" "u" (fun _ => rfl)).1]
  rfl

/-- C3 counterexample: on a body that fails to decode, the executor
returns exactly the bare `json.Unmarshal` error — it is not of the spec's
`DecodeError` kind and carries no raw bytes (line 702 returns the parse
error directly), so "it never returns the bare parse error alone" is
false on this concrete run. -/
theorem bare_error_counterexample :
    (executeRequestAndMarshal
        (⟨"key-three", fun _ => DoResult.resp (Except.ok "not json"), "https://api.paylike.io"⟩ : Client)
        ⟨"GET", "https://api.paylike.io/merchants/m1", none, [], none⟩
        unmarshalMapJSON []).error = some (GoError.jsonErr "invalid JSON syntax") ∧
    unmarshalMapJSON "not json" = Except.error (GoError.jsonErr "invalid JSON syntax") ∧
    (GoError.jsonErr "invalid JSON syntax").isDecodeErrorKind = false :=
  ⟨rfl, rfl, rfl⟩

/-- C3 (amended): a non-empty body the destination's unmarshaller rejects
surfaces as exactly the unmarshaller's own error, unchanged — no
`DecodeError` wrapper and no attached raw bytes exist in the code. -/
theorem unmarshal_error_returned_bare {σ : Type} (c : Client) (req : HttpRequest)
    (unmarshal : String → Except GoError σ) (dest : σ) (b : String) (e : GoError)
    (htr : c.client (withCredentials c req) = DoResult.resp (Except.ok b))
    (hb : b ≠ "") (hu : unmarshal b = Except.error e) :
    (executeRequestAndMarshal c req unmarshal dest).error = some e := by
  unfold executeRequestAndMarshal
  rw [htr]
  simp [hb, hu]

/-- Witness for the amended C3 at a concrete malformed body. -/
theorem unmarshal_error_returned_bare_witness :
    (executeRequestAndMarshal
        (⟨"key-three-b", fun _ => DoResult.resp (Except.ok "\x7b"), "https://api.paylike.io"⟩ : Client)
        ⟨"GET", "https://api.paylike.io/cards/c1", none, [], none⟩
        unmarshalMapJSON []).error = some (GoError.jsonErr "invalid JSON syntax") :=
  unmarshal_error_returned_bare _ _ _ _ "\x7b" _ rfl (by decide) rfl

/-- C9: when `http.NewRequest` fails, `updateMerchant` returns a nil error
(line 499) and `inviteUserToMerchant` returns `nil, nil` (line 512) — the
construction failure is reported as success. -/
theorem construction_failure_swallowed (c : Client) (newReq : NewReqFn)
    (id email : String) (body : Option String) (e1 e2 : GoError)
    (h1 : newReq "PUT" (c.getURL ("/merchants/" ++ id)) body = Except.error e1)
    (h2 : newReq "POST" (c.getURL ("/merchants/" ++ id ++ "/users"))
        (some (inviteUserBody email)) = Except.error e2) :
    Client.updateMerchant c newReq id body = none ∧
    Client.inviteUserToMerchant c newReq id email = (none, none) := by
  constructor
  · simp only [Client.updateMerchant, h1]
  · simp only [Client.inviteUserToMerchant, h2]

/-- Witness for C9 with a request constructor that always fails. -/
theorem construction_failure_swallowed_witness :
    Client.updateMerchant
        (⟨"key-nine", fun _ => DoResult.resp (Except.ok ""), "https://api.paylike.io"⟩ : Client)
        (fun _ _ _ => Except.error (GoError.newRequestErr "invalid URL"))
        "m1" none = none ∧
    Client.inviteUserToMerchant
        (⟨"key-nine", fun _ => DoResult.resp (Except.ok ""), "https://api.paylike.io"⟩ : Client)
        (fun _ _ _ => Except.error (GoError.newRequestErr "invalid URL"))
        "m1" "john@example.com" = (none, none) :=
  construction_failure_swallowed _ _ "m1" "john@example.com" none
    (GoError.newRequestErr "invalid URL") (GoError.newRequestErr "invalid URL") rfl rfl

/-- A string with a successful JSON parse is non-empty. -/
theorem jsonParse_ne_empty {v : JSON} {b : String}
    (h : jsonParse b = Except.ok v) : b ≠ "" := by
  intro hb
  subst hb
  rw [show jsonParse "" = Except.error "invalid JSON syntax" from rfl] at h
  simp at h

/-- C4: single-resource endpoints (`createMerchant`, `getMerchant`,
`createApp`, `fetchCard`) decode the body as an envelope object and
return the value under the resource-name key, while collection endpoints
(`fetchMerchants`, `fetchUsersToMerchant`, `listTransactions`) decode the
body as a bare JSON array with no envelope key.  `cObj` responds with an
object body `b`, `cArr` with an array body `barr`. -/
theorem envelope_vs_collection
    (cObj cArr : Client) (b barr : String)
    (fields : List (String × JSON)) (elems : List JSON)
    (mBody aBody : Option String) (mid aid cid : String) (lim : Int)
    (hObjT : ∀ r, cObj.client r = DoResult.resp (Except.ok b))
    (hArrT : ∀ r, cArr.client r = DoResult.resp (Except.ok barr))
    (hb : jsonParse b = Except.ok (JSON.obj fields))
    (hbarr : jsonParse barr = Except.ok (JSON.arr elems)) :
    (Client.createMerchant cObj stdNewRequest mBody).1 = mapIndex fields "merchant" ∧
    (Client.getMerchant cObj stdNewRequest mid).1 = mapIndex fields "merchant" ∧
    (Client.createApp cObj stdNewRequest aBody).1 = mapIndex fields "app" ∧
    (Client.fetchCard cObj stdNewRequest cid).1 = mapIndex fields "card" ∧
    (Client.fetchMerchants cArr stdNewRequest aid lim).1 = elems ∧
    (Client.fetchUsersToMerchant cArr stdNewRequest mid lim).1 = elems ∧
    (Client.listTransactions cArr stdNewRequest mid lim).1 = elems := by
  have hbne := jsonParse_ne_empty hb
  have hbarrne := jsonParse_ne_empty hbarr
  have hmap : unmarshalMapJSON b = Except.ok fields := by
    simp [unmarshalMapJSON, hb]
  have harr : unmarshalArrJSON barr = Except.ok elems := by
    simp [unmarshalArrJSON, hbarr]
  refine ⟨?_, ?_, ?_, ?_, ?_, ?_, ?_⟩
  · simp only [Client.createMerchant, stdNewRequest]
    rw [exec_ok _ _ _ _ _ _ (hObjT _) hbne hmap]
  · simp only [Client.getMerchant, stdNewRequest]
    rw [exec_ok _ _ _ _ _ _ (hObjT _) hbne hmap]
  · simp only [Client.createApp, stdNewRequest]
    rw [exec_ok _ _ _ _ _ _ (hObjT _) hbne hmap]
  · simp only [Client.fetchCard, stdNewRequest]
    rw [exec_ok _ _ _ _ _ _ (hObjT _) hbne hmap]
  · simp only [Client.fetchMerchants, stdNewRequest]
    rw [exec_ok _ _ _ _ _ _ (hArrT _) hbarrne harr]
  · simp only [Client.fetchUsersToMerchant, stdNewRequest]
    rw [exec_ok _ _ _ _ _ _ (hArrT _) hbarrne harr]
  · simp only [Client.listTransactions, stdNewRequest]
    rw [exec_ok _ _ _ _ _ _ (hArrT _) hbarrne harr]

/-- Witness for C4: a concrete envelope body yields the value under the
`"merchant"` key. -/
theorem envelope_vs_collection_witness :
    (Client.createMerchant
        (⟨"key-four", fun _ => DoResult.resp (Except.ok "\x7b\"merchant\":true\x7d"),
          "https://api.paylike.io"⟩ : Client)
        stdNewRequest none).1 =
      mapIndex [("merchant", JSON.bool true)] "merchant" :=
  (envelope_vs_collection
    ⟨"key-four", fun _ => DoResult.resp (Except.ok "\x7b\"merchant\":true\x7d"),
      "https://api.paylike.io"⟩
    ⟨"key-four", fun _ => DoResult.resp (Except.ok "[null]"), "https://api.paylike.io"⟩
    "\x7b\"merchant\":true\x7d" "[null]"
    [("merchant", JSON.bool true)] [JSON.null]
    none none "m1" "a1" "c1" 5
    (fun _ => rfl) (fun _ => rfl) rfl rfl).1

/-- C5: serializing a `MerchantUpdateDTO` or `TransactionTrailDTO` emits a
member for an optional field exactly when the field is set: an unset
(zero-valued) name, email, descriptor or currency contributes no member
at all to the JSON payload — in particular it can never appear as a null
or empty-string member, since it does not appear. -/
theorem dto_omitempty (d : MerchantUpdateDTO) (t : TransactionTrailDTO) :
    MerchantUpdateDTO.marshal d = marshalMembers (MerchantUpdateDTO.members d) ∧
    TransactionTrailDTO.marshal t = marshalMembers (TransactionTrailDTO.members t) ∧
    ("name" ∈ (MerchantUpdateDTO.members d).map Prod.fst ↔ d.Name ≠ "") ∧
    ("email" ∈ (MerchantUpdateDTO.members d).map Prod.fst ↔ d.Email ≠ "") ∧
    ("descriptor" ∈ (MerchantUpdateDTO.members d).map Prod.fst ↔ d.Descriptor ≠ "") ∧
    ("currency" ∈ (TransactionTrailDTO.members t).map Prod.fst ↔ t.Currency ≠ "") ∧
    ("descriptor" ∈ (TransactionTrailDTO.members t).map Prod.fst ↔ t.Descriptor ≠ "") := by
  refine ⟨rfl, rfl, ?_, ?_, ?_, ?_, ?_⟩
  · by_cases hn : d.Name = "" <;> by_cases he : d.Email = "" <;>
      by_cases hd : d.Descriptor = "" <;>
      simp [MerchantUpdateDTO.members, hn, he, hd]
  · by_cases hn : d.Name = "" <;> by_cases he : d.Email = "" <;>
      by_cases hd : d.Descriptor = "" <;>
      simp [MerchantUpdateDTO.members, hn, he, hd]
  · by_cases hn : d.Name = "" <;> by_cases he : d.Email = "" <;>
      by_cases hd : d.Descriptor = "" <;>
      simp [MerchantUpdateDTO.members, hn, he, hd]
  · by_cases hc : t.Currency = "" <;> by_cases hd2 : t.Descriptor = "" <;>
      simp [TransactionTrailDTO.members, hc, hd2]
  · by_cases hc : t.Currency = "" <;> by_cases hd2 : t.Descriptor = "" <;>
      simp [TransactionTrailDTO.members, hc, hd2]

/-- Witness for C5 on a partially set update DTO and trail DTO. -/
theorem dto_omitempty_witness :
    ("name" ∈ (MerchantUpdateDTO.members ⟨"New Name", "", ""⟩).map Prod.fst ↔
        ("New Name" : String) ≠ "") ∧
    ("currency" ∈ (TransactionTrailDTO.members ⟨100, "", "statement"⟩).map Prod.fst ↔
        ("" : String) ≠ "") :=
  ⟨(dto_omitempty ⟨"New Name", "", ""⟩ ⟨100, "", "statement"⟩).2.2.1,
   (dto_omitempty ⟨"New Name", "", ""⟩ ⟨100, "", "statement"⟩).2.2.2.2.2.1⟩

/-- A successful string-content decode consumes at least one more input
character than it produces (the closing quote), and strictly more for
every escape sequence. -/
theorem decodeStrContent_len :
    ∀ (l t r : List Char), decodeStrContent l = some (t, r) →
      t.length + 1 + r.length ≤ l.length := by
  intro l
  induction l using decodeStrContent.induct
  case case1 =>
    intro t r h
    simp [decodeStrContent] at h
  case case2 rest1 =>
    intro t r h
    rw [decodeStrContent.eq_def] at h
    simp at h
    obtain ⟨ht, hr⟩ := h
    subst ht
    subst hr
    simp
    omega
  case case3 hnq =>
    intro t r h
    rw [decodeStrContent.eq_def] at h
    simp at h
  case case4 h1 h2 h3 h4 rest2 hhex t2 r2 hrec hnq ih =>
    intro t r h
    rw [decodeStrContent.eq_def] at h
    simp [hhex, hrec] at h
    obtain ⟨ht, hr⟩ := h
    subst ht
    subst hr
    have hlen := ih t2 r2 hrec
    simp only [List.length_cons]
    omega
  case case5 h1 h2 h3 h4 rest2 hhex hrec hnq ih =>
    intro t r h
    rw [decodeStrContent.eq_def] at h
    simp [hhex, hrec] at h
  case case6 h1 h2 h3 h4 rest2 hnhex hnq =>
    intro t r h
    rw [decodeStrContent.eq_def] at h
    simp [hnhex] at h
  case case7 rest1 hno hnq =>
    intro t r h
    rw [decodeStrContent.eq_def] at h
    rcases rest1 with _ | ⟨a, _ | ⟨b, _ | ⟨c3, _ | ⟨d, rest⟩⟩⟩⟩
    · simp at h
    · simp at h
    · simp at h
    · simp at h
    · exact (hno a b c3 d rest rfl).elim
  case case8 e rest1 hnu c2 hesc t2 r2 hrec hnq ih =>
    intro t r h
    rw [decodeStrContent.eq_def] at h
    simp [hnu, hesc, hrec] at h
    obtain ⟨ht, hr⟩ := h
    subst ht
    subst hr
    have hlen := ih t2 r2 hrec
    simp only [List.length_cons]
    omega
  case case9 e rest1 hnu c2 hesc hrec hnq ih =>
    intro t r h
    rw [decodeStrContent.eq_def] at h
    simp [hnu, hesc, hrec] at h
  case case10 e rest1 hnu hesc hnq =>
    intro t r h
    rw [decodeStrContent.eq_def] at h
    simp [hnu, hesc] at h
  case case11 e rest1 hq hb hctl =>
    intro t r h
    rw [decodeStrContent.eq_def] at h
    simp [hq, hb, hctl] at h
  case case12 e rest1 hq hb hnctl t2 r2 hrec ih =>
    intro t r h
    rw [decodeStrContent.eq_def] at h
    simp [hq, hb, hnctl, hrec] at h
    obtain ⟨ht, hr⟩ := h
    subst ht
    subst hr
    have hlen := ih t2 r2 hrec
    simp only [List.length_cons]
    omega
  case case13 e rest1 hq hb hnctl hrec ih =>
    intro t r h
    rw [decodeStrContent.eq_def] at h
    simp [hq, hb, hnctl, hrec] at h

/-- When a successful decode consumes exactly one more character than it
produces, no escape sequence was used, so the decoded text contains no
quote and no backslash. -/
theorem decodeStrContent_exact :
    ∀ (l t r : List Char), decodeStrContent l = some (t, r) →
      l.length = t.length + 1 + r.length → '"' ∉ t ∧ '\\' ∉ t := by
  intro l
  induction l using decodeStrContent.induct
  case case1 =>
    intro t r h heq
    simp [decodeStrContent] at h
  case case2 rest1 =>
    intro t r h heq
    rw [decodeStrContent.eq_def] at h
    simp at h
    obtain ⟨ht, hr⟩ := h
    subst ht
    simp
  case case3 hnq =>
    intro t r h heq
    rw [decodeStrContent.eq_def] at h
    simp at h
  case case4 h1 h2 h3 h4 rest2 hhex t2 r2 hrec hnq ih =>
    intro t r h heq
    rw [decodeStrContent.eq_def] at h
    simp [hhex, hrec] at h
    obtain ⟨ht, hr⟩ := h
    subst ht
    subst hr
    have hlen := decodeStrContent_len rest2 t2 r2 hrec
    simp only [List.length_cons] at heq
    omega
  case case5 h1 h2 h3 h4 rest2 hhex hrec hnq ih =>
    intro t r h heq
    rw [decodeStrContent.eq_def] at h
    simp [hhex, hrec] at h
  case case6 h1 h2 h3 h4 rest2 hnhex hnq =>
    intro t r h heq
    rw [decodeStrContent.eq_def] at h
    simp [hnhex] at h
  case case7 rest1 hno hnq =>
    intro t r h heq
    rw [decodeStrContent.eq_def] at h
    rcases rest1 with _ | ⟨a, _ | ⟨b, _ | ⟨c3, _ | ⟨d, rest⟩⟩⟩⟩
    · simp at h
    · simp at h
    · simp at h
    · simp at h
    · exact (hno a b c3 d rest rfl).elim
  case case8 e rest1 hnu c2 hesc t2 r2 hrec hnq ih =>
    intro t r h heq
    rw [decodeStrContent.eq_def] at h
    simp [hnu, hesc, hrec] at h
    obtain ⟨ht, hr⟩ := h
    subst ht
    subst hr
    have hlen := decodeStrContent_len rest1 t2 r2 hrec
    simp only [List.length_cons] at heq
    omega
  case case9 e rest1 hnu c2 hesc hrec hnq ih =>
    intro t r h heq
    rw [decodeStrContent.eq_def] at h
    simp [hnu, hesc, hrec] at h
  case case10 e rest1 hnu hesc hnq =>
    intro t r h heq
    rw [decodeStrContent.eq_def] at h
    simp [hnu, hesc] at h
  case case11 e rest1 hq hb hctl =>
    intro t r h heq
    rw [decodeStrContent.eq_def] at h
    simp [hq, hb, hctl] at h
  case case12 e rest1 hq hb hnctl t2 r2 hrec ih =>
    intro t r h heq
    rw [decodeStrContent.eq_def] at h
    simp [hq, hb, hnctl, hrec] at h
    obtain ⟨ht, hr⟩ := h
    subst ht
    subst hr
    simp only [List.length_cons] at heq
    have hih := ih t2 r2 hrec (by omega)
    constructor
    · intro hmem
      rcases List.mem_cons.mp hmem with hc | hc
      · exact hq hc.symm
      · exact hih.1 hc
    · intro hmem
      rcases List.mem_cons.mp hmem with hc | hc
      · exact hb hc.symm
      · exact hih.2 hc
  case case13 e rest1 hq hb hnctl hrec ih =>
    intro t r h heq
    rw [decodeStrContent.eq_def] at h
    simp [hq, hb, hnctl, hrec] at h

/-- Stripping an expected sequence from itself plus a remainder yields the
remainder. -/
theorem stripChars_self_append (p rest : List Char) :
    stripChars p (p ++ rest) = some rest := by
  induction p with
  | nil => rfl
  | cons c cs ih => simp [stripChars, ih]

/-- Core fact behind C10: the interpolated body built from a string that
contains a double quote or a backslash is never a well-formed JSON
encoding of that string — either the parse fails outright or the decoded
value differs from the input. -/
theorem parseKeyedBody_interp (key s : String)
    (h : '"' ∈ s.data ∨ '\\' ∈ s.data) :
    parseKeyedBody key ("\x7b\"" ++ key ++ "\":\"" ++ s ++ "\"\x7d") ≠ some s := by
  intro hparse
  unfold parseKeyedBody at hparse
  have hdata : ("\x7b\"" ++ key ++ "\":\"" ++ s ++ "\"\x7d").data
      = keyEnvPref key ++ (s.data ++ ['"', '\x7d']) := by
    simp [keyEnvPref, String.data_append,
      show ("\x7b\"" : String).data = ['\x7b', '"'] from rfl,
      show ("\":\"" : String).data = ['"', ':', '"'] from rfl,
      show ("\"\x7d" : String).data = ['"', '\x7d'] from rfl]
  rw [hdata, stripChars_self_append] at hparse
  cases hdec : decodeStrContent (s.data ++ ['"', '\x7d']) with
  | none => simp [hdec] at hparse
  | some pr =>
    obtain ⟨t, r⟩ := pr
    simp [hdec] at hparse
    by_cases hr : r = ['\x7d']
    · simp [hr] at hparse
      have ht : t = s.data := congrArg String.data hparse
      subst hr
      subst ht
      have hexact := decodeStrContent_exact _ _ _ hdec (by simp)
      rcases h with hq | hb
      · exact hexact.1 hq
      · exact hexact.2 hb
    · simp [hr] at hparse

/-- C10: `CreateAppWithName` and `inviteUserToMerchant` build their
request bodies by plain string interpolation into the templates (lines
275 and 508), with no JSON escaping; for every input the body is exactly
that interpolation, and for inputs containing a double quote or a
backslash the body is not a valid JSON encoding of the input. -/
theorem interpolated_bodies (name email : String) :
    createAppWithNameBody name = "\x7b\"name\":\"" ++ name ++ "\"\x7d" ∧
    inviteUserBody email = "\x7b\"email\":\"" ++ email ++ "\"\x7d" ∧
    (('"' ∈ name.data ∨ '\\' ∈ name.data) →
      parseKeyedBody "name" (createAppWithNameBody name) ≠ some name) ∧
    (('"' ∈ email.data ∨ '\\' ∈ email.data) →
      parseKeyedBody "email" (inviteUserBody email) ≠ some email) := by
  refine ⟨rfl, rfl, ?_, ?_⟩
  · intro h
    rw [show createAppWithNameBody name
        = "\x7b\"" ++ "name" ++ "\":\"" ++ name ++ "\"\x7d" from rfl]
    exact parseKeyedBody_interp "name" name h
  · intro h
    rw [show inviteUserBody email
        = "\x7b\"" ++ "email" ++ "\":\"" ++ email ++ "\"\x7d" from rfl]
    exact parseKeyedBody_interp "email" email h

/-- Witness for C10: a name containing a double quote produces a body
that does not decode back to the name. -/
theorem interpolated_bodies_witness :
    parseKeyedBody "name" (createAppWithNameBody "a\"b") ≠ some "a\"b" :=
  (interpolated_bodies "a\"b" "john@example.com").2.2.1 (Or.inl (by decide))

end Paylike
